import Mathlib

/-
Shallow embedding of the OCTOPUS_AUTOMATION batch pipeline.

Source files embedded:
  - email_reader_attachment_download.py : dedup scan, link extraction,
    per-vehicle processing, the fetch-all loop.
  - report_generator.py : the single-flight guard, the batch driver and
    its executor join.
  - script4.py : the upload executor join (same run_executor shape).
  - Launcher.py : sticker-folder rotation.

External library calls (pandas to_datetime, IMAP, HTTP) are modelled as
explicit parameters or environment fields; every branch of the embedded
control flow mirrors a branch of the Python source.
-/

namespace Octopus

/-- A calendar date, the ContentKey of the pipeline (datetime.date). -/
structure Date where
  year : Nat
  month : Nat
  day : Nat
deriving DecidableEq, Repr

/-- A raw cell value as read from a spreadsheet column. -/
abbrev Cell := String

/-- The part of a pandas DataFrame that get_existing_first_created_dates
inspects: whether a createdAt column exists, and the column values in
row order (none modelling a null entry dropped by dropna). -/
structure Frame where
  hasCreatedAt : Bool
  createdAt : List (Option Cell)
deriving DecidableEq, Repr

/-- A file on disk in a vehicle folder: its name and the result of
pd.read_excel on it (none when reading raises). -/
structure XFile where
  name : String
  read : Option Frame
deriving DecidableEq, Repr

/-- The filename filter file.lower().endswith(".xlsx") used by the
scan, expressed over the character list of the name: lowercase every
character, then test for the ".xlsx" suffix. -/
def isXlsx (s : String) : Bool :=
  List.isSuffixOf ".xlsx".data (s.data.map Char.toLower)

/-- The per-file key extraction of get_existing_first_created_dates
(lines 110-121 of email_reader_attachment_download.py): if the file read
fails there is no key; otherwise, if a createdAt column exists, drop the
nulls, take the first remaining value and parse it with pd.to_datetime
(modelled by the parameter toDate); any failure yields no key. -/
def fileFirstDate (toDate : Cell → Option Date) (f : XFile) : Option Date :=
  match f.read with
  | none => none
  | some fr =>
    if fr.hasCreatedAt then
      match (fr.createdAt.filterMap id).head? with
      | none => none
      | some v => toDate v
    else none

/-- get_existing_first_created_dates (lines 100-126): scan the folder,
and for each .xlsx file whose first non-null createdAt value parses,
insert that date into the set; all other files contribute nothing. -/
def get_existing_first_created_dates (toDate : Cell → Option Date)
    (folder : List XFile) : Finset Date :=
  folder.foldl
    (fun s f =>
      if isXlsx f.name then
        match fileFirstDate toDate f with
        | some d => insert d s
        | none => s
      else s)
    ∅

/-- Report format of a link row; the source tags links "can" or "csv". -/
inductive Fmt
  | can
  | csv
deriving DecidableEq, Repr

/-- One extracted link: the href, the raw date-range text of the first
cell, and the format tag. -/
structure LinkRow where
  url : String
  dateRange : String
  fmt : Fmt
deriving DecidableEq, Repr

/-- An HTML anchor as BeautifulSoup sees it: it may lack an href
attribute (the has_attr("href") check). -/
structure Anchor where
  href : Option String
deriving DecidableEq, Repr

/-- A table cell: its stripped text and the first anchor found in it by
cell.find("a"), if any. -/
structure TCell where
  text : String
  anchor : Option Anchor
deriving DecidableEq, Repr

/-- A table row: its td cells in document order. -/
structure TRow where
  cols : List TCell
deriving DecidableEq, Repr

/-- The default cell used for safe indexing in the model; the source
only indexes cols[0..2] after checking len(cols) >= 3. -/
def blankCell : TCell := { text := "", anchor := none }

/-- The combined check can_link and can_link.has_attr("href"): an href
is available from a cell only when an anchor exists and carries one. -/
def cellHref (c : TCell) : Option String :=
  match c.anchor with
  | none => none
  | some a => a.href

/-- The per-row link choice of extract_all_links (lines 152-171): rows
with fewer than three cells are skipped; otherwise the CAN cell
(cols[2]) is tried first and, on success, the CSV cell (cols[1]) is
never consulted; the CSV cell is the fallback. -/
def rowLink (r : TRow) : Option LinkRow :=
  if r.cols.length < 3 then none
  else
    let date := (r.cols.getD 0 blankCell).text
    match cellHref (r.cols.getD 2 blankCell) with
    | some h => some { url := h, dateRange := date, fmt := Fmt.can }
    | none =>
      match cellHref (r.cols.getD 1 blankCell) with
      | some h => some { url := h, dateRange := date, fmt := Fmt.csv }
      | none => none

/-- extract_all_links (lines 129-172) restricted to its table walk: one
optional link per row, appended in row order. -/
def extract_all_links (rows : List TRow) : List LinkRow :=
  rows.filterMap rowLink

/-- The download loop of process_vehicle (lines 219-233): a link whose
date text does not parse is logged and dropped; a link whose parsed
date is already in the dedup set is skipped; every other link is passed
to download_file. Returns the links handed to download_file, in order. -/
def process_links (parse : String → Option Date) (existing : Finset Date) :
    List LinkRow → List LinkRow
  | [] => []
  | l :: rest =>
    match parse l.dateRange with
    | none => process_links parse existing rest
    | some d =>
      if d ∈ existing then process_links parse existing rest
      else l :: process_links parse existing rest

/-- The SyncResult record named by the specification contract
sync(entity) -> SyncResult. Modelled from the spec: no such record type
exists anywhere in the source. -/
structure SyncResult where
  processed : Int
  skipped : Int
  failed : Int
deriving DecidableEq, Repr

/-- Environment of one process_vehicle call: whether the email search
found a message, whether the IMAP fetch succeeded, the current folder
contents, the links extracted from the message body, and the two
external date parsers (pd.to_datetime on cells, parse_email_date on the
date-range text). -/
structure PvEnv where
  emailFound : Bool
  fetchOk : Bool
  folder : List XFile
  links : List LinkRow
  toDate : Cell → Option Date
  parse : String → Option Date

/-- process_vehicle (lines 196-233): early return when no email is
found or the fetch fails; otherwise build the dedup set from the
folder, and when links exist run the download loop. The first component
is the Python return value: the source returns None on every path. The
second component is the list of links passed to download_file. -/
def process_vehicle (env : PvEnv) : Option SyncResult × List LinkRow :=
  if ¬ env.emailFound then (none, [])
  else if ¬ env.fetchOk then (none, [])
  else
    let existing := get_existing_first_created_dates env.toDate env.folder
    if env.links = [] then (none, [])
    else (none, process_links env.parse existing env.links)

/-- Folder state after a run: download_file writes one file per
processed link when the HTTP request succeeds (resp gives the stored
file, none when the download fails and no usable file appears). -/
def folder_after_run (folder : List XFile) (resp : LinkRow → Option XFile)
    (downloads : List LinkRow) : List XFile :=
  folder ++ downloads.filterMap resp

/-- Two successive process_vehicle runs over the same links: the second
run sees the folder as the first run left it. Returns the links the
second run downloads. -/
def second_run_downloads (env : PvEnv) (resp : LinkRow → Option XFile) :
    List LinkRow :=
  let d1 := (process_vehicle env).2
  (process_vehicle { env with folder := folder_after_run env.folder resp d1 }).2

/-- The per-vehicle loop of fetch_reports_for_all_vehicles (lines
256-261): each vehicle is tried in order; an exception from
process_vehicle is caught (recorded as some error) and the loop
continues with the next vehicle. -/
def fetch_loop (run : String → Except String Unit) :
    List String → List (String × Option String)
  | [] => []
  | v :: rest =>
    match run v with
    | Except.ok _ => (v, none) :: fetch_loop run rest
    | Except.error e => (v, some e) :: fetch_loop run rest

/-- Observable events of fetch_reports_for_all_vehicles. -/
inductive FEvent
  | errNotFound
  | warnEmpty
  | errConnect
  | errVehicle (v : String) (e : String)
  | doneAll
deriving DecidableEq, Repr

/-- Environment of fetch_reports_for_all_vehicles: whether the vehicle
list file exists, the ids parsed from it, and whether connecting to the
mailbox succeeds. -/
structure FetchEnv where
  fileExists : Bool
  vehicleIds : List String
  connectOk : Bool

/-- fetch_reports_for_all_vehicles (lines 236-265): missing list file
logs one error and returns; an empty id list logs one warning and
returns; a mailbox connection failure propagates after one log line;
otherwise every vehicle is attempted in order with per-vehicle errors
caught. Returns the emitted log events and the vehicles attempted. -/
def fetch_reports_for_all_vehicles (env : FetchEnv)
    (run : String → Except String Unit) : List FEvent × List String :=
  if ¬ env.fileExists then ([FEvent.errNotFound], [])
  else if env.vehicleIds = [] then ([FEvent.warnEmpty], [])
  else if ¬ env.connectOk then ([FEvent.errConnect], [])
  else
    let rs := fetch_loop run env.vehicleIds
    (rs.filterMap (fun p => p.2.map (FEvent.errVehicle p.1)) ++ [FEvent.doneAll],
     rs.map Prod.fst)

/-- Observable events of generate_all_reports and its run_executor. -/
inductive GEvent
  | skipRunning
  | errNoRoot
  | errNoFolders
  | taskDone (v : String)
  | errTask (v : String) (e : String)
  | allDone
deriving DecidableEq, Repr

/-- The event the join loop emits for one completed future: a normal
completion, or the caught-and-printed exception of that task. -/
def futureEvent : String × Except String Unit → GEvent
  | (v, Except.ok _) => GEvent.taskDone v
  | (v, Except.error e) => GEvent.errTask v e

/-- The as_completed join loop of run_executor (report_generator lines
435-439, script4 lines 221-225): every submitted future is consumed in
completion order; fut.result() exceptions are caught and printed, and
the loop continues with the remaining futures. -/
def consume_futures (results : List (String × Except String Unit)) :
    List GEvent :=
  results.map futureEvent

/-- run_executor (report_generator lines 431-449, script4 lines
218-226): drain every future through the join loop, then emit the
single aggregate completion event (mark_done). The input lists the
submitted tasks with their outcomes, in completion order. -/
def run_executor (results : List (String × Except String Unit)) :
    List GEvent :=
  consume_futures results ++ [GEvent.allDone]

/-- Environment of one generate_all_reports call: whether the download
root is a directory, the vehicle folders found under it, and the
outcome of each submitted task in completion order. -/
structure GenEnv where
  rootIsDir : Bool
  folders : List String
  taskResults : List (String × Except String Unit)

/-- Result of one generate_all_reports call: the emitted events, the
worker tasks started, and the value of the process-wide running flag
after the call returns. -/
structure GenResult where
  events : List GEvent
  workers : List String
  running : Bool
deriving DecidableEq, Repr

/-- generate_all_reports (report_generator lines 389-469): under the
lock, if the running flag is set the call logs a no-op and returns with
the flag untouched; otherwise the flag is set and the body runs inside
try/finally — a missing root or an empty folder list prints one error
and returns early, else one worker per folder is submitted and the
executor join runs; the finally block clears the flag on every one of
those exit paths. -/
def generate_all_reports (running : Bool) (env : GenEnv) : GenResult :=
  if running then { events := [GEvent.skipRunning], workers := [], running := running }
  else if ¬ env.rootIsDir then
    { events := [GEvent.errNoRoot], workers := [], running := false }
  else if env.folders = [] then
    { events := [GEvent.errNoFolders], workers := [], running := false }
  else
    { events := run_executor env.taskResults
      workers := env.folders
      running := false }

/-- get_sticker_folder (Launcher.py lines 24-63): with the sticker
directory present and its sorted subfolder basenames dirs, read the
last-used basename from the state file (none when the file is absent or
unreadable); start from index 0, but when the stored value is a
non-empty member of dirs move to the successor index modulo the count;
persist the chosen basename and return it. The result pairs the chosen
basename with the state-file content written before returning. -/
def get_sticker_folder (dirExists : Bool) (dirs : List String)
    (state : Option String) : Option (String × String) :=
  if ¬ dirExists then none
  else if dirs = [] then none
  else
    let idx : Nat :=
      match state with
      | none => 0
      | some s =>
        if s ≠ "" ∧ s ∈ dirs then (dirs.indexOf s + 1) % dirs.length
        else 0
    let chosen := dirs.getD idx ""
    some (chosen, chosen)

/-- The filter the download loop applies: a link survives when its date
text parses and the parsed date is not in the dedup set. -/
def newLink (parse : String → Option Date) (ex : Finset Date) (l : LinkRow) :
    Bool :=
  match parse l.dateRange with
  | none => false
  | some d => decide (d ∉ ex)

theorem process_links_eq_filter (parse : String → Option Date)
    (ex : Finset Date) (links : List LinkRow) :
    process_links parse ex links = links.filter (newLink parse ex) := by
  induction links with
  | nil => rfl
  | cons l rest ih =>
    cases hp : parse l.dateRange with
    | none =>
      simp [process_links, hp, List.filter_cons, newLink, ih]
    | some d =>
      by_cases hd : d ∈ ex
      · simp [process_links, hp, hd, List.filter_cons, newLink, ih]
      · simp [process_links, hp, hd, List.filter_cons, newLink, ih]

theorem newLink_eq_true (parse : String → Option Date) (ex : Finset Date)
    (l : LinkRow) :
    newLink parse ex l = true ↔
      ∃ d, parse l.dateRange = some d ∧ d ∉ ex := by
  cases hp : parse l.dateRange with
  | none => simp [newLink, hp]
  | some d => simp [newLink, hp]

theorem mem_process_links (parse : String → Option Date) (ex : Finset Date)
    (links : List LinkRow) (l : LinkRow) :
    l ∈ process_links parse ex links ↔
      l ∈ links ∧ ∃ d, parse l.dateRange = some d ∧ d ∉ ex := by
  rw [process_links_eq_filter, List.mem_filter, newLink_eq_true]

theorem mem_dedup_foldl (toDate : Cell → Option Date) (folder : List XFile)
    (s : Finset Date) (d : Date) :
    d ∈ folder.foldl
        (fun s f =>
          if isXlsx f.name then
            match fileFirstDate toDate f with
            | some d => insert d s
            | none => s
          else s) s ↔
      d ∈ s ∨ ∃ f ∈ folder, isXlsx f.name = true ∧
        fileFirstDate toDate f = some d := by
  induction folder generalizing s with
  | nil => simp
  | cons f fs ih =>
    rw [List.foldl_cons, ih]
    by_cases hx : isXlsx f.name
    · cases hfd : fileFirstDate toDate f with
      | none =>
        simp only [hx, if_true, hfd]
        constructor
        · rintro (hs | hrest)
          · exact Or.inl hs
          · exact Or.inr (by
              obtain ⟨g, hg, hgx, hgd⟩ := hrest
              exact ⟨g, List.mem_cons_of_mem _ hg, hgx, hgd⟩)
        · rintro (hs | ⟨g, hg, hgx, hgd⟩)
          · exact Or.inl hs
          · rcases List.mem_cons.mp hg with rfl | hg
            · exact absurd hgd (by simp [hfd])
            · exact Or.inr ⟨g, hg, hgx, hgd⟩
      | some d0 =>
        simp only [hx, if_true, hfd, Finset.mem_insert]
        constructor
        · rintro ((rfl | hs) | hrest)
          · exact Or.inr ⟨f, List.mem_cons_self _ _, hx, hfd⟩
          · exact Or.inl hs
          · obtain ⟨g, hg, hgx, hgd⟩ := hrest
            exact Or.inr ⟨g, List.mem_cons_of_mem _ hg, hgx, hgd⟩
        · rintro (hs | ⟨g, hg, hgx, hgd⟩)
          · exact Or.inl (Or.inr hs)
          · rcases List.mem_cons.mp hg with rfl | hg
            · rw [hfd] at hgd
              exact Or.inl (Or.inl (Option.some_injective _ hgd).symm)
            · exact Or.inr ⟨g, hg, hgx, hgd⟩
    · simp only [hx, if_false]
      constructor
      · rintro (hs | ⟨g, hg, hgx, hgd⟩)
        · exact Or.inl hs
        · exact Or.inr ⟨g, List.mem_cons_of_mem _ hg, hgx, hgd⟩
      · rintro (hs | ⟨g, hg, hgx, hgd⟩)
        · exact Or.inl hs
        · rcases List.mem_cons.mp hg with rfl | hg
          · exact absurd hgx (by simp [hx])
          · exact Or.inr ⟨g, hg, hgx, hgd⟩

theorem mem_dedup (toDate : Cell → Option Date) (folder : List XFile)
    (d : Date) :
    d ∈ get_existing_first_created_dates toDate folder ↔
      ∃ f ∈ folder, isXlsx f.name = true ∧
        fileFirstDate toDate f = some d := by
  have h := mem_dedup_foldl toDate folder ∅ d
  simpa [get_existing_first_created_dates] using h

theorem fetch_loop_map_fst (run : String → Except String Unit)
    (ids : List String) :
    (fetch_loop run ids).map Prod.fst = ids := by
  induction ids with
  | nil => rfl
  | cons v rest ih =>
    cases hr : run v with
    | ok u => simp [fetch_loop, hr, ih]
    | error e => simp [fetch_loop, hr, ih]

theorem futureEvent_ne_allDone (p : String × Except String Unit) :
    futureEvent p ≠ GEvent.allDone := by
  obtain ⟨v, r⟩ := p
  cases r <;> simp [futureEvent]

theorem allDone_not_mem_consume (results : List (String × Except String Unit)) :
    GEvent.allDone ∉ consume_futures results := by
  intro h
  obtain ⟨p, _, hp⟩ := List.mem_map.mp h
  exact futureEvent_ne_allDone p hp

theorem process_vehicle_snd (env : PvEnv) (hm : env.emailFound = true)
    (hf : env.fetchOk = true) :
    (process_vehicle env).2 =
      env.links.filter (newLink env.parse
        (get_existing_first_created_dates env.toDate env.folder)) := by
  by_cases hl : env.links = []
  · simp [process_vehicle, hm, hf, hl]
  · simp [process_vehicle, hm, hf, hl, process_links_eq_filter]

/-- Sample fixtures used by witnesses and counterexamples. -/
def dA : Date := { year := 2025, month := 9, day := 1 }

def dB : Date := { year := 2025, month := 9, day := 2 }

/-- A concrete stand-in for pd.to_datetime on createdAt cells. -/
def sampleToDate : Cell → Option Date :=
  fun c =>
    if c = "2025-09-01" then some dA
    else if c = "2025-09-02" then some dB
    else none

/-- A concrete stand-in for parse_email_date on date-range texts. -/
def sampleParse : String → Option Date :=
  fun s =>
    if s = "1/9/2025" then some dA
    else if s = "2/9/2025" then some dB
    else none

def fileA : XFile :=
  { name := "1-9-2025_Parsed_1.xlsx"
    read := some { hasCreatedAt := true, createdAt := [some "2025-09-01"] } }

def badFile : XFile := { name := "broken.xlsx", read := none }

def linkA : LinkRow :=
  { url := "http://r/a.xlsx", dateRange := "1/9/2025", fmt := Fmt.can }

def linkB : LinkRow :=
  { url := "http://r/b.xlsx", dateRange := "2/9/2025", fmt := Fmt.can }

def cEnv2 : PvEnv :=
  { emailFound := true, fetchOk := true, folder := [fileA]
    links := [linkA, linkB], toDate := sampleToDate, parse := sampleParse }

/-- C1: if generate_all_reports is invoked while another invocation is
still running, the second invocation returns immediately with only the
no-op log, no workers and no other side effects, and the flag is left
set; a first invocation started with the flag clear leaves the flag
clear on every exit path, so a subsequent invocation is never rejected
as a no-op. -/
theorem single_flight_guard (env env2 : GenEnv) :
    generate_all_reports true env =
        { events := [GEvent.skipRunning], workers := [], running := true } ∧
      (generate_all_reports false env).running = false ∧
      (generate_all_reports (generate_all_reports false env).running env2).events ≠
        [GEvent.skipRunning] := by
  have h2 : ∀ e : GenEnv, (generate_all_reports false e).running = false := by
    intro e
    by_cases hr : e.rootIsDir
    · by_cases hfo : e.folders = []
      · simp [generate_all_reports, hr, hfo]
      · simp [generate_all_reports, hr, hfo]
    · simp [generate_all_reports, hr]
  have h3 : ∀ e : GenEnv,
      (generate_all_reports false e).events ≠ [GEvent.skipRunning] := by
    intro e
    by_cases hr : e.rootIsDir
    · by_cases hfo : e.folders = []
      · simp [generate_all_reports, hr, hfo]
      · intro hcontra
        have he : (generate_all_reports false e).events =
            run_executor e.taskResults := by
          simp [generate_all_reports, hr, hfo]
        rw [he] at hcontra
        have hmem : GEvent.allDone ∈ run_executor e.taskResults := by
          simp [run_executor]
        rw [hcontra] at hmem
        simp at hmem
    · simp [generate_all_reports, hr]
  refine ⟨by simp [generate_all_reports], h2 env, ?_⟩
  rw [h2 env]
  exact h3 env2

def cGenEnv : GenEnv :=
  { rootIsDir := true, folders := ["V1"]
    taskResults := [("V1", Except.ok ())] }

theorem single_flight_guard_witness :
    generate_all_reports true cGenEnv =
      { events := [GEvent.skipRunning], workers := [], running := true } :=
  (single_flight_guard cGenEnv cGenEnv).1

/-- C2: during one process_vehicle run, the links handed to
download_file are exactly the links whose date text parses to a date
outside the dedup set built at the start of the run: a link whose
parsed date is in the set is never downloaded, and a link with a valid
date outside the set is always downloaded. -/
theorem dedup_skip_new_links (env : PvEnv) (hm : env.emailFound = true)
    (hf : env.fetchOk = true) :
    (process_vehicle env).2 =
        env.links.filter (newLink env.parse
          (get_existing_first_created_dates env.toDate env.folder)) ∧
      (∀ l ∈ env.links, ∀ d, env.parse l.dateRange = some d →
        d ∈ get_existing_first_created_dates env.toDate env.folder →
        l ∉ (process_vehicle env).2) ∧
      (∀ l ∈ env.links, ∀ d, env.parse l.dateRange = some d →
        d ∉ get_existing_first_created_dates env.toDate env.folder →
        l ∈ (process_vehicle env).2) := by
  have hsnd := process_vehicle_snd env hm hf
  refine ⟨hsnd, ?_, ?_⟩
  · intro l hl d hpd hdin hcontra
    rw [hsnd, List.mem_filter] at hcontra
    obtain ⟨d2, hpd2, hd2⟩ := (newLink_eq_true _ _ _).mp hcontra.2
    rw [hpd] at hpd2
    exact hd2 ((Option.some_injective _ hpd2) ▸ hdin)
  · intro l hl d hpd hdout
    rw [hsnd, List.mem_filter]
    exact ⟨hl, (newLink_eq_true _ _ _).mpr ⟨d, hpd, hdout⟩⟩

theorem dedup_skip_new_links_witness :
    (process_vehicle cEnv2).2 = [linkB] := by
  have h := (dedup_skip_new_links cEnv2 rfl rfl).1
  rw [h]
  decide

/-- C3: the dedup set equals the set of dates obtained by taking, for
each .xlsx file of the folder, the first non-null createdAt value when
it parses; and a file that yields no key — or is not an .xlsx file —
contributes nothing to the set and does not abort the scan. -/
theorem dedup_set_spec (toDate : Cell → Option Date) (folder : List XFile)
    (d : Date) :
    (d ∈ get_existing_first_created_dates toDate folder ↔
        ∃ f ∈ folder, isXlsx f.name = true ∧
          fileFirstDate toDate f = some d) ∧
      (∀ f, fileFirstDate toDate f = none →
        get_existing_first_created_dates toDate (folder ++ [f]) =
          get_existing_first_created_dates toDate folder) ∧
      (∀ f, isXlsx f.name = false →
        get_existing_first_created_dates toDate (folder ++ [f]) =
          get_existing_first_created_dates toDate folder) := by
  refine ⟨mem_dedup toDate folder d, ?_, ?_⟩
  · intro f hnone
    ext x
    rw [mem_dedup, mem_dedup]
    constructor
    · rintro ⟨g, hg, hgx, hgd⟩
      rcases List.mem_append.mp hg with hg | hg
      · exact ⟨g, hg, hgx, hgd⟩
      · rcases List.mem_singleton.mp hg with rfl
        rw [hnone] at hgd
        exact absurd hgd (by simp)
    · rintro ⟨g, hg, hgx, hgd⟩
      exact ⟨g, List.mem_append.mpr (Or.inl hg), hgx, hgd⟩
  · intro f hnx
    ext x
    rw [mem_dedup, mem_dedup]
    constructor
    · rintro ⟨g, hg, hgx, hgd⟩
      rcases List.mem_append.mp hg with hg | hg
      · exact ⟨g, hg, hgx, hgd⟩
      · rcases List.mem_singleton.mp hg with rfl
        rw [hnx] at hgx
        exact absurd hgx (by simp)
    · rintro ⟨g, hg, hgx, hgd⟩
      exact ⟨g, List.mem_append.mpr (Or.inl hg), hgx, hgd⟩

theorem dedup_set_spec_witness :
    dA ∈ get_existing_first_created_dates sampleToDate [fileA] ∧
      get_existing_first_created_dates sampleToDate ([fileA] ++ [badFile]) =
        get_existing_first_created_dates sampleToDate [fileA] := by
  constructor
  · exact (dedup_set_spec sampleToDate [fileA] dA).1.mpr
      ⟨fileA, List.mem_singleton.mpr rfl, by decide, by decide⟩
  · exact (dedup_set_spec sampleToDate [fileA] dA).2.1 badFile (by decide)

/-- C4: a table row with at least three cells contributes at most one
link; when the CAN cell (cols[2]) holds an anchor with an href, that
CAN link is emitted and the CSV cell is not consulted; when it does
not, the result is exactly whatever the CSV cell (cols[1]) offers — so
two formats are never both emitted for one row. -/
theorem link_format_priority (r : TRow) (h : 3 ≤ r.cols.length) :
    (extract_all_links [r]).length ≤ 1 ∧
      (∀ u, cellHref (r.cols.getD 2 blankCell) = some u →
        rowLink r = some { url := u
                           dateRange := (r.cols.getD 0 blankCell).text
                           fmt := Fmt.can }) ∧
      (cellHref (r.cols.getD 2 blankCell) = none →
        rowLink r = (cellHref (r.cols.getD 1 blankCell)).map
          (fun u => { url := u
                      dateRange := (r.cols.getD 0 blankCell).text
                      fmt := Fmt.csv })) := by
  have hlt : ¬ r.cols.length < 3 := not_lt.mpr h
  refine ⟨?_, ?_, ?_⟩
  · cases hr : rowLink r with
    | none => simp [extract_all_links, hr]
    | some l => simp [extract_all_links, hr]
  · intro u hcan
    unfold rowLink
    rw [if_neg hlt, hcan]
  · intro hcan
    unfold rowLink
    rw [if_neg hlt, hcan]
    cases hcsv : cellHref (r.cols.getD 1 blankCell) with
    | none => rfl
    | some u => rfl

def rowBoth : TRow :=
  { cols := [{ text := "1/9/2025", anchor := none },
             { text := "", anchor := some { href := some "http://r/a.csv" } },
             { text := "", anchor := some { href := some "http://r/a.can" } }] }

theorem link_format_priority_witness :
    rowLink rowBoth = some { url := "http://r/a.can"
                             dateRange := "1/9/2025"
                             fmt := Fmt.can } := by
  have h := (link_format_priority rowBoth (by decide)).2.1
    "http://r/a.can" (by decide)
  exact h

/-- C5: a failure on one entity does not stop the rest: the fetch loop
attempts every vehicle of the list whatever each attempt returns, and
the executor join turns an erroring task into a printed event while the
remaining futures are still drained and the aggregate event still
fires; the attempted-vehicle list and the started workers are the full
entity lists. -/
theorem per_entity_fault_isolation :
    (∀ (run : String → Except String Unit) (ids : List String),
        (fetch_loop run ids).map Prod.fst = ids) ∧
      (∀ (l1 : List (String × Except String Unit)) (v : String) (e : String)
          (l2 : List (String × Except String Unit)),
        run_executor (l1 ++ (v, Except.error e) :: l2) =
          consume_futures l1 ++
            GEvent.errTask v e :: (consume_futures l2 ++ [GEvent.allDone])) ∧
      (∀ (v : String) (ids : List String) (run : String → Except String Unit),
        (fetch_reports_for_all_vehicles
          { fileExists := true, vehicleIds := v :: ids, connectOk := true }
          run).2 = v :: ids) ∧
      (∀ (f : String) (fs : List String)
          (ts : List (String × Except String Unit)),
        generate_all_reports false
            { rootIsDir := true, folders := f :: fs, taskResults := ts } =
          { events := run_executor ts, workers := f :: fs, running := false }) := by
  refine ⟨fetch_loop_map_fst, ?_, ?_, ?_⟩
  · intro l1 v e l2
    simp [run_executor, consume_futures, futureEvent]
  · intro v ids run
    simp [fetch_reports_for_all_vehicles, fetch_loop_map_fst]
  · intro f fs ts
    simp [generate_all_reports]

/-- C6: the aggregate completion event is emitted exactly once per
executor run, strictly after the terminal event of every submitted
task — the trace ends with the unique allDone event and every future,
first-finishing or not, has its terminal event before it. -/
theorem join_barrier (results : List (String × Except String Unit)) :
    (run_executor results).count GEvent.allDone = 1 ∧
      ∃ es, run_executor results = es ++ [GEvent.allDone] ∧
        GEvent.allDone ∉ es ∧ ∀ p ∈ results, futureEvent p ∈ es := by
  refine ⟨?_, consume_futures results, rfl,
    allDone_not_mem_consume results, ?_⟩
  · rw [run_executor, List.count_append]
    rw [List.count_eq_zero.mpr (allDone_not_mem_consume results)]
    simp
  · intro p hp
    exact List.mem_map_of_mem futureEvent hp

def demoResults : List (String × Except String Unit) :=
  [("V1", Except.error "boom"), ("V2", Except.ok ())]

theorem join_barrier_witness :
    (run_executor demoResults).count GEvent.allDone = 1 :=
  (join_barrier demoResults).1

def cEnv7 : PvEnv :=
  { emailFound := true, fetchOk := true, folder := [], links := []
    toDate := fun _ => none, parse := fun _ => none }

/-- C7 counterexample: process_vehicle never returns a SyncResult
record — at this concrete input (email found, fetch ok, no links) the
Python return value is None, carrying no processed, skipped or failed
counters. -/
theorem sync_result_shape_counterexample :
    (process_vehicle cEnv7).1 = none := rfl

/-- C7 amended: process_vehicle returns None on every path rather than
a SyncResult record; still, an entity with zero candidates, or none
outside the dedup set, completes without raising and downloads
nothing. -/
theorem sync_result_shape_amended (env : PvEnv) :
    (process_vehicle env).1 = none ∧
      (env.links = [] → (process_vehicle env).2 = []) ∧
      ((∀ l ∈ env.links, ∀ d, env.parse l.dateRange = some d →
          d ∈ get_existing_first_created_dates env.toDate env.folder) →
        (process_vehicle env).2 = []) := by
  refine ⟨?_, ?_, ?_⟩
  · by_cases hm : env.emailFound
    · by_cases hf : env.fetchOk
      · by_cases hl : env.links = []
        · simp [process_vehicle, hm, hf, hl]
        · simp [process_vehicle, hm, hf, hl]
      · simp [process_vehicle, hm, hf]
    · simp [process_vehicle, hm]
  · intro hl
    by_cases hm : env.emailFound
    · by_cases hf : env.fetchOk
      · simp [process_vehicle, hm, hf, hl]
      · simp [process_vehicle, hm, hf]
    · simp [process_vehicle, hm]
  · intro hall
    by_cases hm : env.emailFound
    · by_cases hf : env.fetchOk
      · rw [process_vehicle_snd env hm hf]
        apply List.filter_eq_nil_iff.mpr
        intro l hl hnew
        obtain ⟨d, hpd, hdnot⟩ := (newLink_eq_true _ _ _).mp hnew
        exact hdnot (hall l hl d hpd)
      · simp [process_vehicle, hm, hf]
    · simp [process_vehicle, hm]

def cEnv7b : PvEnv :=
  { emailFound := true, fetchOk := true, folder := [fileA]
    links := [linkA], toDate := sampleToDate, parse := sampleParse }

theorem sync_result_shape_amended_witness :
    (process_vehicle cEnv7b).1 = none ∧ (process_vehicle cEnv7b).2 = [] := by
  refine ⟨(sync_result_shape_amended cEnv7b).1,
    (sync_result_shape_amended cEnv7b).2.2 ?_⟩
  intro l hl d hd
  rcases List.mem_singleton.mp hl with rfl
  have hda : cEnv7b.parse linkA.dateRange = some dA := by decide
  rw [hda] at hd
  obtain rfl := Option.some_injective _ hd
  decide

def linkC : LinkRow :=
  { url := "http://r/a.csv", dateRange := "1/9/2025", fmt := Fmt.csv }

def cEnv8 : PvEnv :=
  { emailFound := true, fetchOk := true, folder := [], links := [linkC]
    toDate := sampleToDate, parse := sampleParse }

def respCsv : LinkRow → Option XFile :=
  fun l =>
    if l = linkC then
      some { name := "1-9-2025_a.csv"
             read := some { hasCreatedAt := true
                            createdAt := [some "2025-09-01"] } }
    else none

/-- C8 counterexample: the first run downloads the CSV report for
1/9/2025 and stores it under a .csv name; the dedup scan of the second
run reads only .xlsx files, so the rebuilt set misses that date and the
same candidate is downloaded again — the second run processes one item,
not zero. -/
theorem second_run_counterexample :
    second_run_downloads cEnv8 respCsv = [linkC] := by decide

/-- C8 amended: the second run downloads nothing provided every link
downloaded in the first run produced a stored .xlsx artifact whose
first non-null createdAt value parses to exactly the date parsed from
that link; artifacts violating this (CSV-named files, failed or corrupt
downloads, mismatched first rows) void the guarantee. -/
theorem dedup_idempotent_amended (env : PvEnv) (resp : LinkRow → Option XFile)
    (hm : env.emailFound = true) (hf : env.fetchOk = true)
    (hres : ∀ l ∈ (process_vehicle env).2, ∃ f, resp l = some f ∧
      isXlsx f.name = true ∧
      fileFirstDate env.toDate f = env.parse l.dateRange) :
    second_run_downloads env resp = [] := by
  have hsnd2 := process_vehicle_snd
    { env with folder := folder_after_run env.folder resp (process_vehicle env).2 }
    hm hf
  show (process_vehicle
    { env with
      folder := folder_after_run env.folder resp (process_vehicle env).2 }).2 = []
  rw [hsnd2]
  apply List.filter_eq_nil_iff.mpr
  intro l hl hnew
  obtain ⟨d, hpd, hdnot⟩ := (newLink_eq_true _ _ _).mp hnew
  apply hdnot
  rw [mem_dedup]
  by_cases hdin : d ∈ get_existing_first_created_dates env.toDate env.folder
  · obtain ⟨g, hg, hgx, hgd⟩ := (mem_dedup _ _ _).mp hdin
    exact ⟨g, List.mem_append.mpr (Or.inl hg), hgx, hgd⟩
  · have hld1 : l ∈ (process_vehicle env).2 := by
      rw [process_vehicle_snd env hm hf, List.mem_filter]
      exact ⟨hl, (newLink_eq_true _ _ _).mpr ⟨d, hpd, hdin⟩⟩
    obtain ⟨f0, hresp, hfx, hfd⟩ := hres l hld1
    refine ⟨f0,
      List.mem_append.mpr (Or.inr (List.mem_filterMap.mpr ⟨l, hld1, hresp⟩)),
      hfx, ?_⟩
    show fileFirstDate env.toDate f0 = some d
    rw [hfd]
    exact hpd

def goodFile : XFile :=
  { name := "1-9-2025_a.xlsx"
    read := some { hasCreatedAt := true, createdAt := [some "2025-09-01"] } }

def respXlsx : LinkRow → Option XFile :=
  fun l => if l = linkC then some goodFile else none

theorem dedup_idempotent_amended_witness :
    second_run_downloads cEnv8 respXlsx = [] := by
  apply dedup_idempotent_amended cEnv8 respXlsx rfl rfl
  have hd1 : (process_vehicle cEnv8).2 = [linkC] := by decide
  rw [hd1]
  intro l hl
  rcases List.mem_singleton.mp hl with rfl
  exact ⟨goodFile, by decide, by decide, by decide⟩

/-- C9: with the download root absent, or no vehicle folders under it,
generate_all_reports emits exactly one error report, starts no worker
and clears the flag; with the vehicle list file missing or empty,
fetch_reports_for_all_vehicles emits exactly one report and attempts no
vehicle. -/
theorem config_abort :
    (∀ (fs : List String) (ts : List (String × Except String Unit)),
        generate_all_reports false
            { rootIsDir := false, folders := fs, taskResults := ts } =
          { events := [GEvent.errNoRoot], workers := [], running := false }) ∧
      (∀ ts : List (String × Except String Unit),
        generate_all_reports false
            { rootIsDir := true, folders := [], taskResults := ts } =
          { events := [GEvent.errNoFolders], workers := [], running := false }) ∧
      (∀ (ids : List String) (c : Bool) (run : String → Except String Unit),
        fetch_reports_for_all_vehicles
            { fileExists := false, vehicleIds := ids, connectOk := c } run =
          ([FEvent.errNotFound], [])) ∧
      (∀ (c : Bool) (run : String → Except String Unit),
        fetch_reports_for_all_vehicles
            { fileExists := true, vehicleIds := [], connectOk := c } run =
          ([FEvent.warnEmpty], [])) := by
  refine ⟨?_, ?_, ?_, ?_⟩ <;> intros <;> rfl

/-- C10: with n >= 1 subfolders in sorted order and a duplicate-free,
non-empty-named listing, get_sticker_folder picks index 0 when the
state file is absent or names no listed subfolder, picks index
(i+1) mod n when the stored basename sits at index i, and in every
successful case returns the chosen basename paired with the state-file
content written before returning (the same basename), so repeated calls
cycle through all subfolders. -/
theorem sticker_rotation (dirs : List String) (state : Option String)
    (hne : dirs ≠ []) (hnodup : dirs.Nodup) (hnb : "" ∉ dirs) :
    (state = none →
        get_sticker_folder true dirs state =
          some (dirs.getD 0 "", dirs.getD 0 "")) ∧
      (∀ s, state = some s → s ∉ dirs →
        get_sticker_folder true dirs state =
          some (dirs.getD 0 "", dirs.getD 0 "")) ∧
      (∀ s i, state = some s → ∀ hi : i < dirs.length,
        dirs.get ⟨i, hi⟩ = s →
        get_sticker_folder true dirs state =
          some (dirs.getD ((i + 1) % dirs.length) "",
                dirs.getD ((i + 1) % dirs.length) "")) := by
  refine ⟨?_, ?_, ?_⟩
  · rintro rfl
    simp [get_sticker_folder, hne]
  · rintro s rfl hnot
    have hcond : ¬ (s ≠ "" ∧ s ∈ dirs) := fun h => hnot h.2
    simp [get_sticker_folder, hne, hcond]
  · rintro s i rfl hi hgi
    have hmem : s ∈ dirs := hgi ▸ List.get_mem dirs i hi
    have hne2 : s ≠ "" := fun h => hnb (h ▸ hmem)
    have hidx : dirs.indexOf s < dirs.length :=
      List.indexOf_lt_length.mpr hmem
    have hio : dirs.get ⟨dirs.indexOf s, hidx⟩ = s := List.indexOf_get hidx
    have hfin : (⟨dirs.indexOf s, hidx⟩ : Fin dirs.length) = ⟨i, hi⟩ :=
      (List.Nodup.get_inj_iff hnodup).mp (hio.trans hgi.symm)
    have hieq : dirs.indexOf s = i := congrArg Fin.val hfin
    have hcond : s ≠ "" ∧ s ∈ dirs := ⟨hne2, hmem⟩
    simp [get_sticker_folder, hne, hcond, hieq]

theorem sticker_rotation_witness :
    get_sticker_folder true ["a", "b", "c"] (some "b") = some ("c", "c") := by
  have h := (sticker_rotation ["a", "b", "c"] (some "b") (by decide)
      (by decide) (by decide)).2.2 "b" 1 rfl (by decide) (by decide)
  exact h.trans (by decide)

end Octopus
